import Mathlib

/-!
Verification development for the go-wtr repository (OFCOM Wireless Telegraphy
Register loader).  The Go sources are shallowly embedded: each Go function of
interest becomes an executable Lean definition, and the spec's claims are
settled as theorems about those definitions.

Namespaces:
* `WtrGo`   — models of the Go standard-library string/number helpers the
  repository calls (`strings.Fields`, `strings.TrimSpace`, `strings.Replace`,
  `strconv.Atoi`, `strconv.ParseFloat`, `strconv.Itoa`).
* `wtr`     — the earliest schema revision (file `part_000`, package `wtr`):
  `newLicenceRow` normalizations, `Filter`, `FilterInPlace`.
* `wtrcsv`  — the current revision (file `wtrcsv.go`, package `wtrcsv`):
  `Row`, `newRow`, `toMap`, `WriteCSV`, `Filter`, `FilterInPlace`,
  `CSVToMap`/`ReadCSV`.
-/

namespace WtrGo

/-- Model of Go `unicode.IsSpace` (the White_Space property): the whitespace
code points recognised by `strings.Fields` and `strings.TrimSpace`. -/
def goIsSpace (c : Char) : Bool :=
  (0x09 ≤ c.val && c.val ≤ 0x0D) || c.val == 0x20 || c.val == 0x85 ||
    c.val == 0xA0 || c.val == 0x1680 || (0x2000 ≤ c.val && c.val ≤ 0x200A) ||
    c.val == 0x2028 || c.val == 0x2029 || c.val == 0x202F ||
    c.val == 0x205F || c.val == 0x3000

/-- Model of Go `strings.Fields`: split around maximal runs of whitespace,
returning the non-empty maximal runs of non-whitespace characters.  The
accumulator holds the current word, reversed. -/
def fieldsAux : List Char → List Char → List (List Char)
  | [], acc => if acc.isEmpty then [] else [acc.reverse]
  | c :: rest, acc =>
    if goIsSpace c then
      if acc.isEmpty then fieldsAux rest [] else acc.reverse :: fieldsAux rest []
    else
      fieldsAux rest (c :: acc)

/-- Model of `strings.Join(strings.Fields(s), "")` on character lists, the
NGR normalization of `newLicenceRow` (part_000, line 110). -/
def normChars (l : List Char) : List Char :=
  (fieldsAux l []).flatten

/-- NGR normalization from `newLicenceRow`:
`ngr := strings.Join(strings.Fields(row["NGR"]), "")`. -/
def normNGR (s : String) : String :=
  ⟨normChars s.data⟩

/-- Model of Go `strings.TrimSpace`. -/
def trimGo (s : String) : String :=
  ⟨((s.data.dropWhile goIsSpace).reverse.dropWhile goIsSpace).reverse⟩

/-- Value of a list of decimal digit characters. -/
def natOfDigits (l : List Char) : Nat :=
  l.foldl (fun a c => a * 10 + (c.toNat - '0'.toNat)) 0

/-- Model of Go `strconv.Atoi` (= `ParseInt(s, 10, 0)`): optional sign then
one or more decimal digits, nothing else.  (Machine-width range errors are not
modelled; the integers of interest are small.) -/
def atoi (s : String) : Option Int :=
  match s.data with
  | '+' :: ds =>
    if !ds.isEmpty && ds.all Char.isDigit then some (natOfDigits ds) else none
  | '-' :: ds =>
    if !ds.isEmpty && ds.all Char.isDigit then some (-(natOfDigits ds : Int)) else none
  | ds =>
    if !ds.isEmpty && ds.all Char.isDigit then some (natOfDigits ds) else none

/-- Model of Go `strconv.Itoa`. -/
def itoa (n : Int) : String := toString n

def isHexDig (c : Char) : Bool :=
  c.isDigit || ('a' ≤ c && c ≤ 'f') || ('A' ≤ c && c ≤ 'F')

def hexVal (c : Char) : Nat :=
  if c.isDigit then c.toNat - '0'.toNat
  else if 'a' ≤ c && c ≤ 'f' then c.toNat - 'a'.toNat + 10
  else c.toNat - 'A'.toNat + 10

def natOfHexDigits (l : List Char) : Nat :=
  l.foldl (fun a c => a * 16 + hexVal c) 0

/-- Decimal exponent part after `e`/`E` (or after `p`/`P` in a hex float):
an optional sign then one or more decimal digits, consuming the whole rest. -/
def parseExpPart (l : List Char) : Option Int :=
  match l with
  | '+' :: ds =>
    if !ds.isEmpty && ds.all Char.isDigit then some (natOfDigits ds) else none
  | '-' :: ds =>
    if !ds.isEmpty && ds.all Char.isDigit then some (-(natOfDigits ds : Int)) else none
  | ds =>
    if !ds.isEmpty && ds.all Char.isDigit then some (natOfDigits ds) else none

def scalePow (base : Nat) (e : Int) : Rat :=
  if 0 ≤ e then ((base : Rat)) ^ e.toNat else 1 / ((base : Rat)) ^ (-e).toNat

/-- Rational value of a decimal mantissa `ip.fp` times `10^e`. -/
def decValue (ip fp : List Char) (e : Int) : Rat :=
  ((natOfDigits (ip ++ fp) : Rat) / (10 : Rat) ^ fp.length) * scalePow 10 e

/-- Rational value of a hex mantissa `hi.fp` times `2^e`. -/
def hexValue (hi fp : List Char) (e : Int) : Rat :=
  ((natOfHexDigits (hi ++ fp) : Rat) / (16 : Rat) ^ fp.length) * scalePow 2 e

/-- Unsigned decimal float body: `digits [. digits] [eE [sign] digits]` with a
non-empty mantissa. -/
def parseDecBody (l : List Char) : Option Rat :=
  let ip := l.takeWhile Char.isDigit
  let r1 := l.dropWhile Char.isDigit
  match r1 with
  | '.' :: t =>
    let fp := t.takeWhile Char.isDigit
    let r2 := t.dropWhile Char.isDigit
    if (ip ++ fp).isEmpty then none
    else
      match r2 with
      | [] => some (decValue ip fp 0)
      | e :: t2 =>
        if e == 'e' || e == 'E' then (parseExpPart t2).map (decValue ip fp) else none
  | [] => if ip.isEmpty then none else some (decValue ip [] 0)
  | e :: t2 =>
    if (e == 'e' || e == 'E') && !ip.isEmpty then (parseExpPart t2).map (decValue ip []) else none

/-- Unsigned hex float body (after the `0x` prefix): hex mantissa with an
optional dot and a mandatory binary exponent `pP [sign] digits`. -/
def parseHexBody (l : List Char) : Option Rat :=
  let hi := l.takeWhile isHexDig
  let r1 := l.dropWhile isHexDig
  match r1 with
  | '.' :: t =>
    let fp := t.takeWhile isHexDig
    let r2 := t.dropWhile isHexDig
    if (hi ++ fp).isEmpty then none
    else
      match r2 with
      | p :: t2 =>
        if p == 'p' || p == 'P' then (parseExpPart t2).map (hexValue hi fp) else none
      | [] => none
  | p :: t2 =>
    if (p == 'p' || p == 'P') && !hi.isEmpty then (parseExpPart t2).map (hexValue hi []) else none
  | [] => none

/-- Underscore digit separators: every `_` must sit between two characters
accepted by `dig`; the underscores are removed.  `none` when misplaced. -/
def stripUnderscores (dig : Char → Bool) : Option Char → List Char → Option (List Char)
  | _, [] => some []
  | prev, '_' :: t =>
    match prev, t with
    | some p, n :: _ =>
      if dig p && dig n then stripUnderscores dig (some '_') t else none
    | _, _ => none
  | _, c :: t => (stripUnderscores dig (some c) t).map (c :: ·)

/-- Unsigned body of `strconv.ParseFloat`: `inf`/`infinity` (case-insensitive),
a hex float, or a decimal float, with Go's underscore separators allowed.
IEEE special values are represented as `0`: no claim observes the numeric
value of a float field, only parse success and the preserved string. -/
def parseGoFloatBody (l : List Char) : Option Rat :=
  let low := l.map Char.toLower
  if low = "inf".data || low = "infinity".data then some 0
  else
    match l with
    | '0' :: x :: t =>
      if x == 'x' || x == 'X' then
        match stripUnderscores (fun c => isHexDig c || c == 'x' || c == 'X') (some x) t with
        | some t' => parseHexBody t'
        | none => none
      else
        match stripUnderscores Char.isDigit none l with
        | some l' => parseDecBody l'
        | none => none
    | _ =>
      match stripUnderscores Char.isDigit none l with
      | some l' => parseDecBody l'
      | none => none

/-- Model of Go `strconv.ParseFloat(s, 64)` as an exact rational (rounding to
binary64 is irrelevant here: no claim observes the parsed numeric value).
Range overflow to ±Inf (an error in Go) is not modelled. -/
def parseGoFloat (s : String) : Option Rat :=
  if s.data.map Char.toLower = "nan".data then some 0
  else
    match s.data with
    | '+' :: t => parseGoFloatBody t
    | '-' :: t => (parseGoFloatBody t).map Neg.neg
    | l => parseGoFloatBody l

/-- Index of the first occurrence of `pat` in `s` (Go `strings.Index`). -/
def findFirst : List Char → List Char → Option Nat
  | s, pat =>
    if pat.isPrefixOf s then some 0
    else
      match s with
      | [] => none
      | _ :: t => (findFirst t pat).map (· + 1)

/-- Model of Go `strings.Contains`. -/
def containsSubstr (s pat : List Char) : Bool :=
  (findFirst s pat).isSome

/-- Model of Go `strings.Replace(s, old, new, 1)`: replace the first
occurrence of `old`, if any. -/
def replaceFirst (s old new : List Char) : List Char :=
  match findFirst s old with
  | none => s
  | some i => s.take i ++ new ++ s.drop (i + old.length)

/-- One raw CSV row as built by `CSVToMap`: the Go `map[string]string` from
header label to cell value is modelled as an association list in insertion
order (`dict[header[i]] = record[i]` for increasing `i`). -/
abbrev RawRow := List (String × String)

/-- Go map lookup with presence: `v, ok := m[k]`.  A later insertion for the
same key overwrites an earlier one, so the last binding wins. -/
def getVal (m : RawRow) (k : String) : Option String :=
  (m.reverse.find? (fun p => p.1 == k)).map (fun p => p.2)

/-- Go map lookup returning the zero value: `m[k]` is `""` when `k` is
absent. -/
def getD (m : RawRow) (k : String) : String :=
  (getVal m k).getD ""

end WtrGo

/-!
## The earliest schema revision: package `wtr`, file `part_000`

`newLicenceRow` (lines 73-201) normalizes the product code/description, the
licensee company name and the NGR before filling the record; `Filter` and
`FilterInPlace` (lines 333-368) use a labelled `break Loop` that exits the
**outer** row loop.
-/

namespace wtr

open WtrGo

/-- The separator class of the split pattern `([0-9]{6})[\- ]+(.*)$`. -/
def sepChar (c : Char) : Bool := c == '-' || c == ' '

def headSep : List Char → Bool
  | d :: _ => sepChar d
  | [] => false

/-- Leftmost match of Go `regexp` `([0-9]{6})[\- ]+(.*)$` via
`FindStringSubmatch`, returning the two capture groups: scan start positions
left to right; at a position the pattern matches when six digits are followed
by at least one `-`/space and the remainder after the maximal separator run
contains no newline (`.` does not match `\n`, and `$` anchors at the end). -/
def findSplit : List Char → Option (List Char × List Char)
  | [] => none
  | c :: t =>
    if ((c :: t).take 6).length == 6 && ((c :: t).take 6).all Char.isDigit &&
        headSep ((c :: t).drop 6) &&
        !((((c :: t).drop 6).dropWhile sepChar).contains '\n') then
      some ((c :: t).take 6, ((c :: t).drop 6).dropWhile sepChar)
    else
      findSplit t

/-- Product code / description tidy-up of `newLicenceRow` (part_000, lines
74-86): trim both, and when the code is longer than six characters and no
description was supplied, split on the regex, leaving the values unsplit when
the pattern does not match. -/
def productCodeSplit (rawCode rawDesc : String) : String × String :=
  let pc := trimGo rawCode
  let pd := trimGo rawDesc
  if 6 < pc.data.length ∧ pd.data.length = 0 then
    match findSplit pc.data with
    | some (c, d) => (⟨c⟩, ⟨d⟩)
    | none => (pc, pd)
  else (pc, pd)

/-- The substring replacement pairs of `newLicenceRow` (part_000, lines
95-102), in source order. -/
def pairsCompany : List (String × String) :=
  [("Public Limited Company", "PLC"), ("PUBLIC LIMITED COMPANY", "PLC"),
    ("Limited", "Ltd"), ("LIMITED", "LTD")]

/-- Company-name abbreviation of `newLicenceRow` (part_000, lines 89-108):
two exact-match special cases, otherwise each pair is replaced at most once
(first occurrence) in source order. -/
def tweakCompany (s : String) : String :=
  if s = "BRITISH TELECOMMUNICATIONS PUBLIC LIMITED COMPANY" then "BT PLC"
  else if s = "MOBILE BROADBAND NETWORK LIMITED" then "MBNL"
  else
    pairsCompany.foldl
      (fun acc p =>
        if containsSubstr acc.data p.1.data then ⟨replaceFirst acc.data p.1.data p.2.data⟩
        else acc)
      s

/-- The `LicenceRow` struct of part_000 (lines 16-70).  The two OSGB36
fields are Go `int`, the two WGS84 fields Go `float64` (modelled as `Rat`;
their numeric value is never rendered back in the claims below). -/
structure LicenceRow where
  LicenceNumber : String
  LicenceIssueDate : String
  SidLatNS : String
  SidLatDeg : String
  SidLatMin : String
  SidLatSec : String
  SidLongEW : String
  SidLongDeg : String
  SidLongMin : String
  SidLongSec : String
  NGR : String
  Frequency : String
  FrequencyType : String
  StationType : String
  ChannelWidth : String
  ChannelWidthType : String
  HeightAboveSeaLevel : String
  AntennaErp : String
  AntennaErpType : String
  AntennaType : String
  AntennaGain : String
  AntennaAzimuth : String
  HorizontalElements : String
  VerticalElements : String
  AntennaHeight : String
  AntennaLocation : String
  EflUpperLower : String
  AntennaDirection : String
  AntennaElevation : String
  AntennaPolarisation : String
  AntennaName : String
  FeedingLoss : String
  FadeMargin : String
  EmissionCode : String
  ApCommentIntern : String
  Vector : String
  LicenseeSurname : String
  LicenseeFirstName : String
  LicenseeCompany : String
  Status : String
  Tradeable : String
  Publishable : String
  ProductCode : String
  ProductDescription : String
  ProductDescription31 : String
  ProductDescription32 : String
  Osgb36Eastings : Int
  Osgb36Northings : Int
  Wgs84Eastings : Rat
  Wgs84Northings : Rat
deriving Inhabited

/-- The core-field part of `newLicenceRow` (part_000, lines 74-161): every
core column is read with the Go map's zero-value default, with the three
normalizations applied. -/
def coreLicenceRow (row : RawRow) : LicenceRow :=
  let pcd := productCodeSplit (getD row "Product Code") (getD row "Product Description")
  { LicenceNumber := getD row "Licence Number"
    LicenceIssueDate := getD row "Licence issue date"
    SidLatNS := getD row "SID_LAT_N_S"
    SidLatDeg := getD row "SID_LAT_DEG"
    SidLatMin := getD row "SID_LAT_MIN"
    SidLatSec := getD row "SID_LAT_SEC"
    SidLongEW := getD row "SID_LONG_E_W"
    SidLongDeg := getD row "SID_LONG_DEG"
    SidLongMin := getD row "SID_LONG_MIN"
    SidLongSec := getD row "SID_LONG_SEC"
    NGR := normNGR (getD row "NGR")
    Frequency := getD row "Frequency"
    FrequencyType := getD row "Frequency Type"
    StationType := getD row "Station Type"
    ChannelWidth := getD row "Channel Width"
    ChannelWidthType := getD row "Channel Width type"
    HeightAboveSeaLevel := getD row "Height above sea level"
    AntennaErp := getD row "Antenna ERP"
    AntennaErpType := getD row "Antenna ERP type"
    AntennaType := getD row "Antenna Type"
    AntennaGain := getD row "Antenna Gain"
    AntennaAzimuth := getD row "Antenna AZIMUTH"
    HorizontalElements := getD row "Horizontal Elements"
    VerticalElements := getD row "Vertical Elements"
    AntennaHeight := getD row "Antenna Height"
    AntennaLocation := getD row "Antenna Location"
    EflUpperLower := getD row "EFL_UPPER_LOWER"
    AntennaDirection := getD row "Antenna Direction"
    AntennaElevation := getD row "Antenna Elevation"
    AntennaPolarisation := getD row "Antenna Polarisation"
    AntennaName := getD row "Antenna Name"
    FeedingLoss := getD row "Feeding Loss"
    FadeMargin := getD row "Fade Margin"
    EmissionCode := getD row "Emission Code"
    ApCommentIntern := getD row "AP_COMMENT_INTERN"
    Vector := getD row "Vector"
    LicenseeSurname := getD row "Licencee Surname"
    LicenseeFirstName := getD row "Licencee First Name"
    LicenseeCompany := tweakCompany (getD row "Licencee Company")
    Status := getD row "Status"
    Tradeable := getD row "Tradeable"
    Publishable := getD row "Publishable"
    ProductCode := pcd.1
    ProductDescription := pcd.2
    ProductDescription31 := getD row "Product Description 31"
    ProductDescription32 := getD row "Product Description 32"
    Osgb36Eastings := 0
    Osgb36Northings := 0
    Wgs84Eastings := 0
    Wgs84Northings := 0 }

/-- `OSGB36 E` handling of part_000 (lines 167-173): when present it must
parse as an integer; `log.Fatal` on failure is modelled as `none`. -/
def applyOsgb36E (row : RawRow) (r : LicenceRow) : Option LicenceRow :=
  match getVal row "OSGB36 E" with
  | none => some r
  | some v => (atoi v).map (fun n => { r with Osgb36Eastings := n })

/-- `OSGB36 N` handling (lines 175-181). -/
def applyOsgb36N (row : RawRow) (r : LicenceRow) : Option LicenceRow :=
  match getVal row "OSGB36 N" with
  | none => some r
  | some v => (atoi v).map (fun n => { r with Osgb36Northings := n })

/-- `WGS84 E` handling (lines 183-189). -/
def applyWgs84E (row : RawRow) (r : LicenceRow) : Option LicenceRow :=
  match getVal row "WGS84 E" with
  | none => some r
  | some v => (parseGoFloat v).map (fun q => { r with Wgs84Eastings := q })

/-- `WGS84 N` handling (lines 191-198). -/
def applyWgs84N (row : RawRow) (r : LicenceRow) : Option LicenceRow :=
  match getVal row "WGS84 N" with
  | none => some r
  | some v => (parseGoFloat v).map (fun q => { r with Wgs84Northings := q })

/-- `newLicenceRow` (part_000, lines 73-201).  `none` models the process
abort of `log.Fatal` on an unparsable present extension column. -/
def newLicenceRow (row : RawRow) : Option LicenceRow :=
  (((applyOsgb36E row (coreLicenceRow row)).bind (applyOsgb36N row)).bind
      (applyWgs84E row)).bind (applyWgs84N row)

structure LicenceCollection where
  Header : List String
  Rows : List LicenceRow

/-- Row selection of part_000's `Filter` (lines 333-349): the labelled
`break Loop` exits the **outer** row loop at the first row failing any
predicate, so scanning stops entirely there. -/
def selRowsEarly (fs : List (LicenceRow → Bool)) : List LicenceRow → List LicenceRow
  | [] => []
  | r :: t => if fs.all (fun f => f r) then r :: selRowsEarly fs t else []

/-- Row selection of part_000's `FilterInPlace` (lines 353-368): the same
labelled `break Loop` control flow, written over the receiver's storage. -/
def selRowsEarlyInPlace (fs : List (LicenceRow → Bool)) : List LicenceRow → List LicenceRow
  | [] => []
  | r :: t => if fs.all (fun f => f r) then r :: selRowsEarlyInPlace fs t else []

/-- part_000 `Filter` (lines 333-349). -/
def Filter (lc : LicenceCollection) (fs : List (LicenceRow → Bool)) : LicenceCollection :=
  ⟨lc.Header, selRowsEarly fs lc.Rows⟩

/-- part_000 `FilterInPlace` (lines 353-368); the returned collection is the
receiver's state after the mutation. -/
def FilterInPlace (lc : LicenceCollection) (fs : List (LicenceRow → Bool)) : LicenceCollection :=
  ⟨lc.Header, selRowsEarlyInPlace fs lc.Rows⟩

/-- part_000 `FilterPointToPoint` (lines 372-374). -/
def FilterPointToPoint (row : LicenceRow) : Bool :=
  row.ProductCode == "301010"

end wtr

/-!
## The current revision: package `wtrcsv`, file `wtrcsv.go`

No parse-time normalization: core columns are copied verbatim (lines 81-130);
the four extension columns are `OS Easting`/`OS Northing` (`int`) and
`WGS84 Longitude`/`WGS84 Latitude` (`float64` with the raw string also
preserved).  `toMap` (lines 171-224) renders a record back to labelled
strings and `WriteCSV` (lines 253-271) drives output from the header.
-/

namespace wtrcsv

open WtrGo

def HeadingOsEasting : String := "OS Easting"

def HeadingOsNorthing : String := "OS Northing"

def HeadingWgs84Longitude : String := "WGS84 Longitude"

def HeadingWgs84Latitude : String := "WGS84 Latitude"

/-- The `Row` struct of wtrcsv.go (lines 15-71). -/
structure Row where
  LicenceNumber : String
  LicenceIssueDate : String
  SidLatNS : String
  SidLatDeg : String
  SidLatMin : String
  SidLatSec : String
  SidLongEW : String
  SidLongDeg : String
  SidLongMin : String
  SidLongSec : String
  NGR : String
  Frequency : String
  FrequencyType : String
  StationType : String
  ChannelWidth : String
  ChannelWidthType : String
  HeightAboveSeaLevel : String
  AntennaErp : String
  AntennaErpType : String
  AntennaType : String
  AntennaGain : String
  AntennaAzimuth : String
  HorizontalElements : String
  VerticalElements : String
  AntennaHeight : String
  AntennaLocation : String
  EflUpperLower : String
  AntennaDirection : String
  AntennaElevation : String
  AntennaPolarisation : String
  AntennaName : String
  FeedingLoss : String
  FadeMargin : String
  EmissionCode : String
  ApCommentIntern : String
  Vector : String
  LicenseeSurname : String
  LicenseeFirstName : String
  LicenseeCompany : String
  Status : String
  Tradeable : String
  Publishable : String
  ProductCode : String
  ProductDescription : String
  ProductDescription31 : String
  ProductDescription32 : String
  Wgs84LongitudeAsString : String
  Wgs84LatitudeAsString : String
  Wgs84Longitude : Rat
  Wgs84Latitude : Rat
  OsEasting : Int
  OsNorthing : Int
deriving Inhabited

/-- The core-field part of `newRow` (wtrcsv.go, lines 83-130): every core
column is copied verbatim with the Go map's zero-value default; the
extension fields start at their zero values. -/
def coreRow (columns : RawRow) : Row :=
  { LicenceNumber := getD columns "Licence Number"
    LicenceIssueDate := getD columns "Licence issue date"
    SidLatNS := getD columns "SID_LAT_N_S"
    SidLatDeg := getD columns "SID_LAT_DEG"
    SidLatMin := getD columns "SID_LAT_MIN"
    SidLatSec := getD columns "SID_LAT_SEC"
    SidLongEW := getD columns "SID_LONG_E_W"
    SidLongDeg := getD columns "SID_LONG_DEG"
    SidLongMin := getD columns "SID_LONG_MIN"
    SidLongSec := getD columns "SID_LONG_SEC"
    NGR := getD columns "NGR"
    Frequency := getD columns "Frequency"
    FrequencyType := getD columns "Frequency Type"
    StationType := getD columns "Station Type"
    ChannelWidth := getD columns "Channel Width"
    ChannelWidthType := getD columns "Channel Width type"
    HeightAboveSeaLevel := getD columns "Height above sea level"
    AntennaErp := getD columns "Antenna ERP"
    AntennaErpType := getD columns "Antenna ERP type"
    AntennaType := getD columns "Antenna Type"
    AntennaGain := getD columns "Antenna Gain"
    AntennaAzimuth := getD columns "Antenna AZIMUTH"
    HorizontalElements := getD columns "Horizontal Elements"
    VerticalElements := getD columns "Vertical Elements"
    AntennaHeight := getD columns "Antenna Height"
    AntennaLocation := getD columns "Antenna Location"
    EflUpperLower := getD columns "EFL_UPPER_LOWER"
    AntennaDirection := getD columns "Antenna Direction"
    AntennaElevation := getD columns "Antenna Elevation"
    AntennaPolarisation := getD columns "Antenna Polarisation"
    AntennaName := getD columns "Antenna Name"
    FeedingLoss := getD columns "Feeding Loss"
    FadeMargin := getD columns "Fade Margin"
    EmissionCode := getD columns "Emission Code"
    ApCommentIntern := getD columns "AP_COMMENT_INTERN"
    Vector := getD columns "Vector"
    LicenseeSurname := getD columns "Licencee Surname"
    LicenseeFirstName := getD columns "Licencee First Name"
    LicenseeCompany := getD columns "Licencee Company"
    Status := getD columns "Status"
    Tradeable := getD columns "Tradeable"
    Publishable := getD columns "Publishable"
    ProductCode := getD columns "Product Code"
    ProductDescription := getD columns "Product Description"
    ProductDescription31 := getD columns "Product Description 31"
    ProductDescription32 := getD columns "Product Description 32"
    Wgs84LongitudeAsString := ""
    Wgs84LatitudeAsString := ""
    Wgs84Longitude := 0
    Wgs84Latitude := 0
    OsEasting := 0
    OsNorthing := 0 }

/-- `OS Easting` handling of `newRow` (lines 136-141): when the label is
present the value must parse as an integer; `log.Fatalf` on failure is
modelled as `none`. -/
def applyOsEasting (columns : RawRow) (r : Row) : Option Row :=
  match getVal columns HeadingOsEasting with
  | none => some r
  | some v => (atoi v).map (fun n => { r with OsEasting := n })

/-- `OS Northing` handling (lines 143-148). -/
def applyOsNorthing (columns : RawRow) (r : Row) : Option Row :=
  match getVal columns HeadingOsNorthing with
  | none => some r
  | some v => (atoi v).map (fun n => { r with OsNorthing := n })

/-- `WGS84 Longitude` handling (lines 150-156): the raw string is preserved
and also parsed. -/
def applyWgs84Longitude (columns : RawRow) (r : Row) : Option Row :=
  match getVal columns HeadingWgs84Longitude with
  | none => some r
  | some v =>
    (parseGoFloat v).map (fun q => { r with Wgs84LongitudeAsString := v, Wgs84Longitude := q })

/-- `WGS84 Latitude` handling (lines 158-164). -/
def applyWgs84Latitude (columns : RawRow) (r : Row) : Option Row :=
  match getVal columns HeadingWgs84Latitude with
  | none => some r
  | some v =>
    (parseGoFloat v).map (fun q => { r with Wgs84LatitudeAsString := v, Wgs84Latitude := q })

/-- `newRow` (wtrcsv.go, lines 81-167).  `none` models the process abort of
`log.Fatalf` on an unparsable present extension column. -/
def newRow (columns : RawRow) : Option Row :=
  (((applyOsEasting columns (coreRow columns)).bind (applyOsNorthing columns)).bind
      (applyWgs84Longitude columns)).bind (applyWgs84Latitude columns)

/-- `toMap` (wtrcsv.go, lines 171-224), as the association list of the Go
map literal: the two integer extension fields are rendered with
`strconv.Itoa`, the two WGS84 fields with their preserved string form. -/
def Row.toMap (row : Row) : List (String × String) :=
  [("Licence Number", row.LicenceNumber),
    ("Licence issue date", row.LicenceIssueDate),
    ("SID_LAT_N_S", row.SidLatNS),
    ("SID_LAT_DEG", row.SidLatDeg),
    ("SID_LAT_MIN", row.SidLatMin),
    ("SID_LAT_SEC", row.SidLatSec),
    ("SID_LONG_E_W", row.SidLongEW),
    ("SID_LONG_DEG", row.SidLongDeg),
    ("SID_LONG_MIN", row.SidLongMin),
    ("SID_LONG_SEC", row.SidLongSec),
    ("NGR", row.NGR),
    ("Frequency", row.Frequency),
    ("Frequency Type", row.FrequencyType),
    ("Station Type", row.StationType),
    ("Channel Width", row.ChannelWidth),
    ("Channel Width type", row.ChannelWidthType),
    ("Height above sea level", row.HeightAboveSeaLevel),
    ("Antenna ERP", row.AntennaErp),
    ("Antenna ERP type", row.AntennaErpType),
    ("Antenna Type", row.AntennaType),
    ("Antenna Gain", row.AntennaGain),
    ("Antenna AZIMUTH", row.AntennaAzimuth),
    ("Horizontal Elements", row.HorizontalElements),
    ("Vertical Elements", row.VerticalElements),
    ("Antenna Height", row.AntennaHeight),
    ("Antenna Location", row.AntennaLocation),
    ("EFL_UPPER_LOWER", row.EflUpperLower),
    ("Antenna Direction", row.AntennaDirection),
    ("Antenna Elevation", row.AntennaElevation),
    ("Antenna Polarisation", row.AntennaPolarisation),
    ("Antenna Name", row.AntennaName),
    ("Feeding Loss", row.FeedingLoss),
    ("Fade Margin", row.FadeMargin),
    ("Emission Code", row.EmissionCode),
    ("AP_COMMENT_INTERN", row.ApCommentIntern),
    ("Vector", row.Vector),
    ("Licencee Surname", row.LicenseeSurname),
    ("Licencee First Name", row.LicenseeFirstName),
    ("Licencee Company", row.LicenseeCompany),
    ("Status", row.Status),
    ("Tradeable", row.Tradeable),
    ("Publishable", row.Publishable),
    ("Product Code", row.ProductCode),
    ("Product Description", row.ProductDescription),
    ("Product Description 31", row.ProductDescription31),
    ("Product Description 32", row.ProductDescription32),
    (HeadingOsEasting, itoa row.OsEasting),
    (HeadingOsNorthing, itoa row.OsNorthing),
    (HeadingWgs84Longitude, row.Wgs84LongitudeAsString),
    (HeadingWgs84Latitude, row.Wgs84LatitudeAsString)]

/-- Lookup in a rendered row map, with the Go zero-value default used at
`rowAsMap[heading]` in `WriteCSV` (line 264). -/
def mapGetD (m : List (String × String)) (k : String) : String :=
  ((m.find? (fun p => p.1 == k)).map (fun p => p.2)).getD ""

structure Collection where
  Header : List String
  Rows : List Row

/-- `CSVToMap` (wtrcsv.go, lines 385-408) on already-tokenized records: the
first record is the header, each later record becomes a label-to-value map. -/
def CSVToMap (records : List (List String)) : List String × List RawRow :=
  match records with
  | [] => ([], [])
  | header :: rs => (header, rs.map (fun rec => header.zip rec))

/-- `ReadCSV` (wtrcsv.go, lines 242-250): build a `Collection` from the
tokenized records, aborting (`none`) when any row aborts. -/
def readCSV (records : List (List String)) : Option Collection :=
  let hr := CSVToMap records
  (hr.2.mapM newRow).map (fun rows => ⟨hr.1, rows⟩)

/-- `WriteCSV` (wtrcsv.go, lines 253-271) as the sequence of CSV records it
emits: the header first, then for each row the values of `toMap` in header
order. -/
def writeCSV (collection : Collection) : List (List String) :=
  collection.Header ::
    collection.Rows.map (fun row =>
      collection.Header.map (fun heading => mapGetD row.toMap heading))

/-- Row selection of `Filter` (wtrcsv.go, lines 297-317): the `ok` flag with
an inner-loop `break`, so every row is tested independently. -/
def selectRows (fs : List (Row → Bool)) : List Row → List Row
  | [] => []
  | r :: t =>
    if fs.all (fun f => f r) then r :: selectRows fs t else selectRows fs t

/-- Row selection of `FilterInPlace` (wtrcsv.go, lines 321-341): the same
`ok`-flag loop, appending into the receiver's backing storage. -/
def selectRowsInPlace (fs : List (Row → Bool)) : List Row → List Row
  | [] => []
  | r :: t =>
    if fs.all (fun f => f r) then r :: selectRowsInPlace fs t else selectRowsInPlace fs t

/-- `Filter` (wtrcsv.go, lines 297-317). -/
def Filter (collection : Collection) (fs : List (Row → Bool)) : Collection :=
  ⟨collection.Header, selectRows fs collection.Rows⟩

/-- `FilterInPlace` (wtrcsv.go, lines 321-341); the returned collection is
the receiver's state after its row storage was overwritten. -/
def FilterInPlace (collection : Collection) (fs : List (Row → Bool)) : Collection :=
  ⟨collection.Header, selectRowsInPlace fs collection.Rows⟩

/-- The labels that `toMap` knows, in source order. -/
def knownLabels : List String :=
  ["Licence Number", "Licence issue date", "SID_LAT_N_S", "SID_LAT_DEG",
    "SID_LAT_MIN", "SID_LAT_SEC", "SID_LONG_E_W", "SID_LONG_DEG",
    "SID_LONG_MIN", "SID_LONG_SEC", "NGR", "Frequency", "Frequency Type",
    "Station Type", "Channel Width", "Channel Width type",
    "Height above sea level", "Antenna ERP", "Antenna ERP type",
    "Antenna Type", "Antenna Gain", "Antenna AZIMUTH", "Horizontal Elements",
    "Vertical Elements", "Antenna Height", "Antenna Location",
    "EFL_UPPER_LOWER", "Antenna Direction", "Antenna Elevation",
    "Antenna Polarisation", "Antenna Name", "Feeding Loss", "Fade Margin",
    "Emission Code", "AP_COMMENT_INTERN", "Vector", "Licencee Surname",
    "Licencee First Name", "Licencee Company", "Status", "Tradeable",
    "Publishable", "Product Code", "Product Description",
    "Product Description 31", "Product Description 32",
    HeadingOsEasting, HeadingOsNorthing, HeadingWgs84Longitude,
    HeadingWgs84Latitude]

end wtrcsv

/-- A part_000 row failing `FilterPointToPoint`. -/
def wtrRowFail : wtr.LicenceRow :=
  { (default : wtr.LicenceRow) with ProductCode := "999999" }

/-- A part_000 row passing `FilterPointToPoint`. -/
def wtrRowPass : wtr.LicenceRow :=
  { (default : wtr.LicenceRow) with ProductCode := "301010" }

namespace WtrGo

theorem fieldsAux_join (l : List Char) :
    ∀ acc, (fieldsAux l acc).flatten = acc.reverse ++ l.filter (fun c => !goIsSpace c) := by
  induction l with
  | nil =>
    intro acc
    by_cases h : acc.isEmpty
    · simp [fieldsAux, h, List.isEmpty_iff.mp h]
    · simp [fieldsAux, h]
  | cons c rest ih =>
    intro acc
    by_cases hc : goIsSpace c
    · by_cases h : acc.isEmpty
      · simp [fieldsAux, hc, h, ih, List.isEmpty_iff.mp h]
      · simp [fieldsAux, hc, h, ih]
    · simpa [fieldsAux, hc] using ih (c :: acc)

/-- The Go normalization deletes exactly the whitespace characters. -/
theorem normChars_eq_filter (l : List Char) :
    normChars l = l.filter (fun c => !goIsSpace c) := by
  simpa [normChars] using fieldsAux_join l []

theorem normNGR_data (s : String) :
    (normNGR s).data = s.data.filter (fun c => !goIsSpace c) := by
  simp [normNGR, normChars_eq_filter]

theorem normNGR_idem (s : String) : normNGR (normNGR s) = normNGR s := by
  have h : (normNGR s).data.filter (fun c => !goIsSpace c) = (normNGR s).data := by
    rw [List.filter_eq_self]
    intro a ha
    rw [normNGR_data] at ha
    exact (List.mem_filter.mp ha).2
  cases hs : normNGR s with
  | mk d =>
    have : (normNGR ⟨d⟩).data = d := by
      rw [normNGR_data]
      have := h
      rw [hs] at this
      exact this
    cases hr : normNGR ⟨d⟩ with
    | mk e => simp only [hr] at this; simp [this]

theorem findFirst_sound (pat : List Char) :
    ∀ s i, findFirst s pat = some i →
      pat.isPrefixOf (s.drop i) = true ∧ ∀ j, j < i → pat.isPrefixOf (s.drop j) = false := by
  intro s
  induction s with
  | nil =>
    intro i h
    rw [findFirst] at h
    by_cases hp : pat.isPrefixOf ([] : List Char)
    · simp [hp] at h
      subst h
      exact ⟨by simpa using hp, fun j hj => absurd hj (Nat.not_lt_zero j)⟩
    · simp [hp] at h
  | cons c t ih =>
    intro i h
    rw [findFirst] at h
    by_cases hp : pat.isPrefixOf (c :: t)
    · simp [hp] at h
      subst h
      exact ⟨by simpa using hp, fun j hj => absurd hj (Nat.not_lt_zero j)⟩
    · simp [hp] at h
      obtain ⟨i', hi', rfl⟩ := h
      obtain ⟨h1, h2⟩ := ih i' hi'
      refine ⟨by simpa using h1, ?_⟩
      intro j hj
      cases j with
      | zero =>
        simp only [List.drop_zero]
        exact Bool.eq_false_iff.mpr hp
      | succ j' =>
        have : j' < i' := Nat.lt_of_succ_lt_succ hj
        simpa using h2 j' this

theorem isPrefixOf_decomp {pat l : List Char} (h : pat.isPrefixOf l = true) :
    l = pat ++ l.drop pat.length := by
  obtain ⟨t, ht⟩ := List.isPrefixOf_iff_prefix.mp h
  subst ht
  simp

theorem findFirst_decomp {s pat : List Char} {i : Nat}
    (h : findFirst s pat = some i) (new : List Char) :
    s = s.take i ++ pat ++ s.drop (i + pat.length) ∧
      replaceFirst s pat new = s.take i ++ new ++ s.drop (i + pat.length) := by
  obtain ⟨h1, _⟩ := findFirst_sound pat s i h
  have hdec : s.drop i = pat ++ s.drop (i + pat.length) := by
    have := isPrefixOf_decomp h1
    rw [List.drop_drop] at this
    rw [this, Nat.add_comm]
  constructor
  · conv_lhs => rw [← List.take_append_drop i s]
    rw [hdec, List.append_assoc]
  · rw [replaceFirst, h]

/-- A string whose underlying character list is `l`. -/
theorem string_mk_data (s : String) : (⟨s.data⟩ : String) = s := by
  cases s
  rfl

end WtrGo

namespace wtr

open WtrGo

theorem findSplit_sound :
    ∀ s c d, findSplit s = some (c, d) →
      c.length = 6 ∧ c.all Char.isDigit = true ∧
        ∃ pre seps, s = pre ++ c ++ seps ++ d ∧ seps ≠ [] ∧ seps.all sepChar = true := by
  intro s
  induction s with
  | nil => intro c d h; simp [findSplit] at h
  | cons ch t ih =>
    intro c d h
    rw [findSplit] at h
    by_cases hcond : (((ch :: t).take 6).length == 6 && ((ch :: t).take 6).all Char.isDigit &&
        headSep ((ch :: t).drop 6) &&
        !((((ch :: t).drop 6).dropWhile sepChar).contains '\n')) = true
    · rw [if_pos hcond] at h
      simp only [Bool.and_eq_true] at hcond
      obtain ⟨⟨⟨hlen, hdig⟩, hsep⟩, _⟩ := hcond
      injection h with h'
      injection h' with hc hd
      subst hc; subst hd
      refine ⟨by simpa using hlen, hdig, [], ((ch :: t).drop 6).takeWhile sepChar, ?_, ?_, ?_⟩
      · conv_lhs => rw [← List.take_append_drop 6 (ch :: t)]
        rw [← List.takeWhile_append_dropWhile (p := sepChar) (l := (ch :: t).drop 6)]
        simp
      · cases hdrop : (ch :: t).drop 6 with
        | nil => rw [hdrop] at hsep; simp [headSep] at hsep
        | cons d0 t0 =>
          rw [hdrop] at hsep
          simp only [headSep] at hsep
          simp [List.takeWhile, hsep]
      · rw [List.all_eq_true]
        intro x hx
        exact List.mem_takeWhile_imp hx
    · rw [if_neg hcond] at h
      obtain ⟨h6, hdig, pre, seps, hs, hne, hall⟩ := ih c d h
      exact ⟨h6, hdig, ch :: pre, seps, by subst hs; simp, hne, hall⟩

end wtr

namespace wtrcsv

open WtrGo

theorem toMap_fst (row : Row) : row.toMap.map Prod.fst = knownLabels := rfl

theorem mapGetD_not_mem :
    ∀ (m : List (String × String)) (k : String), k ∉ m.map Prod.fst → mapGetD m k = "" := by
  intro m
  induction m with
  | nil => intro k _; rfl
  | cons a t ih =>
    intro k hk
    have hne : ¬(a.1 == k) = true := by
      intro hbeq
      exact hk (by simp [beq_iff_eq.mp hbeq])
    have : (a.1 == k) = false := Bool.eq_false_iff.mpr hne
    simp only [mapGetD, List.find?_cons, this]
    exact ih k (fun hmem => hk (List.mem_cons_of_mem _ hmem))

theorem mapGetD_toMap_osEasting (row : Row) :
    mapGetD row.toMap HeadingOsEasting = itoa row.OsEasting := rfl

theorem mapGetD_toMap_osNorthing (row : Row) :
    mapGetD row.toMap HeadingOsNorthing = itoa row.OsNorthing := rfl

theorem mapGetD_toMap_wgs84Long (row : Row) :
    mapGetD row.toMap HeadingWgs84Longitude = row.Wgs84LongitudeAsString := rfl

theorem mapGetD_toMap_wgs84Lat (row : Row) :
    mapGetD row.toMap HeadingWgs84Latitude = row.Wgs84LatitudeAsString := rfl

theorem selectRows_eq_filter (fs : List (Row → Bool)) :
    ∀ l, selectRows fs l = l.filter (fun r => fs.all (fun f => f r)) := by
  intro l
  induction l with
  | nil => rfl
  | cons r t ih =>
    by_cases h : fs.all (fun f => f r)
    · simp [selectRows, h, ih, List.filter_cons]
    · simp [selectRows, h, ih, List.filter_cons]

theorem selectRowsInPlace_eq_selectRows (fs : List (Row → Bool)) :
    ∀ l, selectRowsInPlace fs l = selectRows fs l := by
  intro l
  induction l with
  | nil => rfl
  | cons r t ih => simp only [selectRowsInPlace, selectRows, ih]

theorem applyOsEasting_elim {columns : RawRow} {r r' : Row}
    (h : applyOsEasting columns r = some r') :
    (getVal columns HeadingOsEasting = none ∧ r' = r) ∨
      (∃ v x, getVal columns HeadingOsEasting = some v ∧ atoi v = some x ∧
        r' = { r with OsEasting := x }) := by
  cases hv : getVal columns HeadingOsEasting with
  | none =>
    refine Or.inl ⟨rfl, ?_⟩
    rw [applyOsEasting, hv] at h
    exact (Option.some_inj.mp h).symm
  | some v =>
    have h' : Option.map (fun x => { r with OsEasting := x }) (atoi v) = some r' := by
      rw [applyOsEasting, hv] at h
      exact h
    cases ha : atoi v with
    | none => rw [ha] at h'; simp at h'
    | some x =>
      rw [ha] at h'
      exact Or.inr ⟨v, x, rfl, ha, (Option.some_inj.mp (by simpa using h')).symm⟩

theorem applyOsNorthing_elim {columns : RawRow} {r r' : Row}
    (h : applyOsNorthing columns r = some r') :
    (getVal columns HeadingOsNorthing = none ∧ r' = r) ∨
      (∃ v x, getVal columns HeadingOsNorthing = some v ∧ atoi v = some x ∧
        r' = { r with OsNorthing := x }) := by
  cases hv : getVal columns HeadingOsNorthing with
  | none =>
    refine Or.inl ⟨rfl, ?_⟩
    rw [applyOsNorthing, hv] at h
    exact (Option.some_inj.mp h).symm
  | some v =>
    have h' : Option.map (fun x => { r with OsNorthing := x }) (atoi v) = some r' := by
      rw [applyOsNorthing, hv] at h
      exact h
    cases ha : atoi v with
    | none => rw [ha] at h'; simp at h'
    | some x =>
      rw [ha] at h'
      exact Or.inr ⟨v, x, rfl, ha, (Option.some_inj.mp (by simpa using h')).symm⟩

theorem applyWgs84Longitude_elim {columns : RawRow} {r r' : Row}
    (h : applyWgs84Longitude columns r = some r') :
    (getVal columns HeadingWgs84Longitude = none ∧ r' = r) ∨
      (∃ v x, getVal columns HeadingWgs84Longitude = some v ∧ parseGoFloat v = some x ∧
        r' = { r with Wgs84LongitudeAsString := v, Wgs84Longitude := x }) := by
  cases hv : getVal columns HeadingWgs84Longitude with
  | none =>
    refine Or.inl ⟨rfl, ?_⟩
    rw [applyWgs84Longitude, hv] at h
    exact (Option.some_inj.mp h).symm
  | some v =>
    have h' : Option.map (fun x => { r with Wgs84LongitudeAsString := v, Wgs84Longitude := x }) (parseGoFloat v) = some r' := by
      rw [applyWgs84Longitude, hv] at h
      exact h
    cases ha : parseGoFloat v with
    | none => rw [ha] at h'; simp at h'
    | some x =>
      rw [ha] at h'
      exact Or.inr ⟨v, x, rfl, ha, (Option.some_inj.mp (by simpa using h')).symm⟩

theorem applyWgs84Latitude_elim {columns : RawRow} {r r' : Row}
    (h : applyWgs84Latitude columns r = some r') :
    (getVal columns HeadingWgs84Latitude = none ∧ r' = r) ∨
      (∃ v x, getVal columns HeadingWgs84Latitude = some v ∧ parseGoFloat v = some x ∧
        r' = { r with Wgs84LatitudeAsString := v, Wgs84Latitude := x }) := by
  cases hv : getVal columns HeadingWgs84Latitude with
  | none =>
    refine Or.inl ⟨rfl, ?_⟩
    rw [applyWgs84Latitude, hv] at h
    exact (Option.some_inj.mp h).symm
  | some v =>
    have h' : Option.map (fun x => { r with Wgs84LatitudeAsString := v, Wgs84Latitude := x }) (parseGoFloat v) = some r' := by
      rw [applyWgs84Latitude, hv] at h
      exact h
    cases ha : parseGoFloat v with
    | none => rw [ha] at h'; simp at h'
    | some x =>
      rw [ha] at h'
      exact Or.inr ⟨v, x, rfl, ha, (Option.some_inj.mp (by simpa using h')).symm⟩

/-- Decompose a successful `newRow` into its four extension steps. -/
theorem newRow_elim {columns : RawRow} {r : Row} (h : newRow columns = some r) :
    ∃ r1 r2 r3, applyOsEasting columns (coreRow columns) = some r1 ∧
      applyOsNorthing columns r1 = some r2 ∧
      applyWgs84Longitude columns r2 = some r3 ∧
      applyWgs84Latitude columns r3 = some r := by
  rw [newRow] at h
  obtain ⟨r3, h3, hLat⟩ := Option.bind_eq_some.mp h
  obtain ⟨r2, h2, hLong⟩ := Option.bind_eq_some.mp h3
  obtain ⟨r1, h1, hN⟩ := Option.bind_eq_some.mp h2
  exact ⟨r1, r2, r3, h1, hN, hLong, hLat⟩

end wtrcsv

theorem wtr.selRowsEarlyInPlace_eq (fs : List (wtr.LicenceRow → Bool)) :
    ∀ l, wtr.selRowsEarlyInPlace fs l = wtr.selRowsEarly fs l := by
  intro l
  induction l with
  | nil => rfl
  | cons r t ih => simp only [wtr.selRowsEarlyInPlace, wtr.selRowsEarly, ih]

theorem WtrGo.replaceFirst_not_contains {s old : List Char}
    (h : WtrGo.findFirst s old = none) (new : List Char) :
    WtrGo.replaceFirst s old new = s := by
  rw [WtrGo.replaceFirst, h]

theorem WtrGo.tweak_step_eq (acc old new : String) :
    (if WtrGo.containsSubstr acc.data old.data then
        (⟨WtrGo.replaceFirst acc.data old.data new.data⟩ : String)
      else acc) =
      ⟨WtrGo.replaceFirst acc.data old.data new.data⟩ := by
  by_cases h : WtrGo.containsSubstr acc.data old.data
  · rw [if_pos h]
  · rw [if_neg h]
    have hn : WtrGo.findFirst acc.data old.data = none := by
      rw [WtrGo.containsSubstr] at h
      exact Option.not_isSome_iff_eq_none.mp (by simpa using h)
    rw [WtrGo.replaceFirst_not_contains hn, WtrGo.string_mk_data]

/-- Claim C1: part_000's `Filter` does not return exactly the rows passing
every predicate: on a collection whose first row fails the predicate and whose
second row passes it, the labelled `break Loop` ends the whole scan at the
first row, returning no rows, while the rows passing every predicate are
exactly the second one.  The current revision's `Filter` (wtrcsv.go) does
satisfy the claimed contract: same header, and exactly the rows on which
every predicate returns true, in original relative order. -/
theorem claim_C1_filter_row_selection :
    (wtr.Filter ⟨["Product Code"], [wtrRowFail, wtrRowPass]⟩ [wtr.FilterPointToPoint]).Rows
        = [] ∧
    [wtrRowFail, wtrRowPass].filter
        (fun r => [wtr.FilterPointToPoint].all (fun f => f r)) = [wtrRowPass] ∧
    (∀ (c : wtrcsv.Collection) (fs : List (wtrcsv.Row → Bool)),
      (wtrcsv.Filter c fs).Header = c.Header ∧
      (wtrcsv.Filter c fs).Rows = c.Rows.filter (fun r => fs.all (fun f => f r))) := by
  refine ⟨rfl, rfl, fun c fs => ⟨rfl, wtrcsv.selectRows_eq_filter fs c.Rows⟩⟩

/-- Claim C4: `Filter` (wtrcsv.go) keeps the receiver's header and never
returns more rows than the receiver has; the embedding is pure, so the
receiver itself is untouched by construction. -/
theorem claim_C4_filter_purity :
    ∀ (c : wtrcsv.Collection) (fs : List (wtrcsv.Row → Bool)),
      (wtrcsv.Filter c fs).Header = c.Header ∧
      (wtrcsv.Filter c fs).Rows.length ≤ c.Rows.length := by
  intro c fs
  refine ⟨rfl, ?_⟩
  show (wtrcsv.selectRows fs c.Rows).length ≤ c.Rows.length
  rw [wtrcsv.selectRows_eq_filter]
  exact List.length_filter_le _ _

/-- Claim C5: `FilterInPlace` has exactly the row-selection semantics of
`Filter`, in the current revision (wtrcsv.go) and also in part_000 (where
both share the same truncating control flow); the in-place variant's result
is the receiver's new state with the header untouched. -/
theorem claim_C5_filter_in_place_equivalence :
    (∀ (c : wtrcsv.Collection) (fs : List (wtrcsv.Row → Bool)),
      wtrcsv.FilterInPlace c fs = wtrcsv.Filter c fs ∧
      (wtrcsv.FilterInPlace c fs).Header = c.Header) ∧
    (∀ (lc : wtr.LicenceCollection) (fs : List (wtr.LicenceRow → Bool)),
      wtr.FilterInPlace lc fs = wtr.Filter lc fs) := by
  constructor
  · intro c fs
    constructor
    · show (⟨c.Header, wtrcsv.selectRowsInPlace fs c.Rows⟩ : wtrcsv.Collection) = _
      rw [wtrcsv.selectRowsInPlace_eq_selectRows]
      rfl
    · rfl
  · intro lc fs
    show (⟨lc.Header, wtr.selRowsEarlyInPlace fs lc.Rows⟩ : wtr.LicenceCollection) = _
    rw [wtr.selRowsEarlyInPlace_eq]
    rfl

/-- Claim C6: the NGR normalization of part_000's `newLicenceRow` removes
exactly the whitespace characters of the raw value and is idempotent;
concrete instances include the spec's examples. -/
theorem claim_C6_ngr_normalization :
    (∀ s : String,
      (WtrGo.normNGR s).data = s.data.filter (fun c => !WtrGo.goIsSpace c) ∧
      WtrGo.normNGR (WtrGo.normNGR s) = WtrGo.normNGR s) ∧
    WtrGo.normNGR "SU 123 456" = "SU123456" ∧
    WtrGo.normNGR "AB 12345 67890" = "AB1234567890" ∧
    WtrGo.normNGR "AB1234567890" = "AB1234567890" := by
  refine ⟨fun s => ⟨WtrGo.normNGR_data s, WtrGo.normNGR_idem s⟩, ?_, ?_, ?_⟩ <;> decide

/-- Claim C10: a table whose header carries the `OS Easting` extension label
but whose row has an empty cell there aborts the whole load, while the
identical table with that column deleted loads fine: an empty cell in a
present extension column is a parse failure, not absence. -/
theorem claim_C10_empty_extension_cell_aborts :
    wtrcsv.readCSV [["Licence Number", "OS Easting"], ["L1", ""]] = none ∧
    (wtrcsv.readCSV [["Licence Number"], ["L1"]]).isSome = true := by
  exact ⟨rfl, rfl⟩

/-- Claim C7: in the earliest schema revision, when the trimmed product code
is longer than six characters and the trimmed description is empty, the code
is matched against `([0-9]{6})[\- ]+(.*)$`: on a match the record gets the
six-digit group as code and the trailing group as description (the input
decomposes as prefix ++ six digits ++ a non-empty dash/space run ++ rest);
when the pattern does not match, or the guard does not hold, both trimmed
values are stored unsplit. -/
theorem claim_C7_product_code_split :
    ∀ rawCode rawDesc : String,
      (6 < (WtrGo.trimGo rawCode).data.length →
        (WtrGo.trimGo rawDesc).data.length = 0 →
        (∀ c d, wtr.findSplit (WtrGo.trimGo rawCode).data = some (c, d) →
          wtr.productCodeSplit rawCode rawDesc = (⟨c⟩, ⟨d⟩) ∧
            c.length = 6 ∧ c.all Char.isDigit = true ∧
            ∃ pre seps, (WtrGo.trimGo rawCode).data = pre ++ c ++ seps ++ d ∧
              seps ≠ [] ∧ seps.all wtr.sepChar = true) ∧
        (wtr.findSplit (WtrGo.trimGo rawCode).data = none →
          wtr.productCodeSplit rawCode rawDesc = (WtrGo.trimGo rawCode, WtrGo.trimGo rawDesc))) ∧
      (¬(6 < (WtrGo.trimGo rawCode).data.length ∧ (WtrGo.trimGo rawDesc).data.length = 0) →
        wtr.productCodeSplit rawCode rawDesc = (WtrGo.trimGo rawCode, WtrGo.trimGo rawDesc)) := by
  intro rawCode rawDesc
  constructor
  · intro h6 hpd
    constructor
    · intro c d hf
      have hs := wtr.findSplit_sound _ c d hf
      refine ⟨?_, hs.1, hs.2.1, hs.2.2⟩
      simp only [wtr.productCodeSplit]
      rw [if_pos ⟨h6, hpd⟩, hf]
    · intro hn
      simp only [wtr.productCodeSplit]
      rw [if_pos ⟨h6, hpd⟩, hn]
  · intro hneg
    simp only [wtr.productCodeSplit]
    rw [if_neg hneg]

/-- Witness for C7: a combined code+description splits into the six-digit
code and the trailing text, and a seven-digit code with no separator is left
unsplit. -/
theorem claim_C7_product_code_split_witness :
    wtr.productCodeSplit "301010-Fixed Link" "" = ("301010", "Fixed Link") ∧
    wtr.productCodeSplit " 1234567 " "" = ("1234567", "") := by
  constructor
  · have h := ((claim_C7_product_code_split "301010-Fixed Link" "").1
      (by decide) (by decide)).1 "301010".data "Fixed Link".data (by decide)
    rw [h.1, WtrGo.string_mk_data, WtrGo.string_mk_data]
  · have h := ((claim_C7_product_code_split " 1234567 " "").1
      (by decide) (by decide)).2 (by decide)
    rw [h]
    decide

/-- Claim C8: the company-name abbreviation of the earliest schema revision:
the two exact full names map to their fixed short forms; any other value goes
through the four substring replacements in source order, each applied at most
once (the first occurrence only, case-sensitively); `replaceFirst` replaces
exactly the first occurrence, and a value without an occurrence is returned
unchanged. -/
theorem claim_C8_company_abbreviation :
    wtr.tweakCompany "BRITISH TELECOMMUNICATIONS PUBLIC LIMITED COMPANY" = "BT PLC" ∧
    wtr.tweakCompany "MOBILE BROADBAND NETWORK LIMITED" = "MBNL" ∧
    (∀ s : String, s ≠ "BRITISH TELECOMMUNICATIONS PUBLIC LIMITED COMPANY" →
      s ≠ "MOBILE BROADBAND NETWORK LIMITED" →
      wtr.tweakCompany s =
        ⟨WtrGo.replaceFirst (WtrGo.replaceFirst (WtrGo.replaceFirst (WtrGo.replaceFirst
            s.data "Public Limited Company".data "PLC".data)
            "PUBLIC LIMITED COMPANY".data "PLC".data)
            "Limited".data "Ltd".data)
            "LIMITED".data "LTD".data⟩) ∧
    (∀ (s old new : List Char) (i : Nat), WtrGo.findFirst s old = some i →
      s = s.take i ++ old ++ s.drop (i + old.length) ∧
      WtrGo.replaceFirst s old new = s.take i ++ new ++ s.drop (i + old.length) ∧
      ∀ j, j < i → old.isPrefixOf (s.drop j) = false) ∧
    (∀ (s old new : List Char), WtrGo.findFirst s old = none →
      WtrGo.replaceFirst s old new = s) := by
  refine ⟨by decide, by decide, ?_, ?_, ?_⟩
  · intro s h1 h2
    rw [wtr.tweakCompany, if_neg h1, if_neg h2]
    simp only [wtr.pairsCompany, List.foldl]
    rw [WtrGo.tweak_step_eq, WtrGo.tweak_step_eq, WtrGo.tweak_step_eq, WtrGo.tweak_step_eq]
  · intro s old new i h
    obtain ⟨hdec, hrep⟩ := WtrGo.findFirst_decomp h new
    exact ⟨hdec, hrep, fun j hj => (WtrGo.findFirst_sound old s i h).2 j hj⟩
  · intro s old new h
    exact WtrGo.replaceFirst_not_contains h new

/-- Witness for C8: the substring chain turns `VODAFONE LIMITED` into
`VODAFONE LTD`, and `replaceFirst` rewrites only the first of two
occurrences. -/
theorem claim_C8_company_abbreviation_witness :
    wtr.tweakCompany "VODAFONE LIMITED" = "VODAFONE LTD" ∧
    WtrGo.replaceFirst "abcab".data "ab".data "X".data = "Xcab".data := by
  constructor
  · have h := claim_C8_company_abbreviation.2.2.1 "VODAFONE LIMITED" (by decide) (by decide)
    rw [h]
    decide
  · have h := claim_C8_company_abbreviation.2.2.2.1 "abcab".data "ab".data "X".data 0 (by decide)
    rw [h.2.1]
    decide

/-- Claim C2: for a loaded collection, `WriteCSV` emits the collection's
header (the input header, unchanged) as its first record, then one record
per row listing `toMap`'s values in header order; a header label `toMap`
does not know renders as the empty string. -/
theorem claim_C2_write_header_fidelity :
    ∀ (header : List String) (rest : List (List String)) (c : wtrcsv.Collection),
      wtrcsv.readCSV (header :: rest) = some c →
        c.Header = header ∧
        (wtrcsv.writeCSV c).head? = some header ∧
        wtrcsv.writeCSV c =
          header :: c.Rows.map (fun r => header.map (fun l => wtrcsv.mapGetD r.toMap l)) ∧
        (∀ (r : wtrcsv.Row) (l : String), l ∉ wtrcsv.knownLabels →
          wtrcsv.mapGetD r.toMap l = "") := by
  intro header rest c hc
  simp only [wtrcsv.readCSV, wtrcsv.CSVToMap] at hc
  obtain ⟨rows, hrows, hcel⟩ := Option.map_eq_some'.mp hc
  subst hcel
  refine ⟨rfl, rfl, rfl, ?_⟩
  intro r l hl
  apply wtrcsv.mapGetD_not_mem
  rw [wtrcsv.toMap_fst]
  exact hl

/-- Witness for C2: a concrete two-column table round-trips its header, and
the unknown label `Foo` renders as the empty string. -/
theorem claim_C2_write_header_fidelity_witness :
    (wtrcsv.writeCSV
        ((wtrcsv.readCSV [["Licence Number", "Foo"], ["L1", "x"]]).getD ⟨[], []⟩)).head? =
      some ["Licence Number", "Foo"] ∧
    wtrcsv.mapGetD (wtrcsv.coreRow []).toMap "Foo" = "" := by
  obtain ⟨c, hc⟩ : ∃ c, wtrcsv.readCSV [["Licence Number", "Foo"], ["L1", "x"]] = some c :=
    ⟨_, rfl⟩
  have h := claim_C2_write_header_fidelity _ _ _ hc
  rw [hc]
  exact ⟨h.2.1, h.2.2.2 _ _ (by decide)⟩

/-- Counterexample to claim C3: the integer extension field `OS Easting` has
no preserved string form; loading the value `007` (label present, field
populated) succeeds, but rendering outputs `7`, the decimal re-formatting of
the parsed integer, not the string captured at parse time. -/
theorem claim_C3_counterexample_easting :
    ∃ r : wtrcsv.Row,
      wtrcsv.newRow [(wtrcsv.HeadingOsEasting, "007")] = some r ∧
      WtrGo.getVal [(wtrcsv.HeadingOsEasting, "007")] wtrcsv.HeadingOsEasting = some "007" ∧
      wtrcsv.mapGetD r.toMap wtrcsv.HeadingOsEasting = "7" ∧
      ("7" : String) ≠ "007" := by
  refine ⟨_, rfl, rfl, rfl, by decide⟩

/-- Claim C3 as amended: the WGS84 extension fields render their preserved
parse-time string when populated and the empty string when never populated;
the integer `OS Easting`/`OS Northing` fields always render the decimal form
of the parsed value (`strconv.Itoa`), which is `0` when never populated. -/
theorem claim_C3_amended_rendering :
    ∀ (columns : WtrGo.RawRow) (r : wtrcsv.Row), wtrcsv.newRow columns = some r →
      (∀ v, WtrGo.getVal columns wtrcsv.HeadingWgs84Longitude = some v →
        wtrcsv.mapGetD r.toMap wtrcsv.HeadingWgs84Longitude = v) ∧
      (∀ v, WtrGo.getVal columns wtrcsv.HeadingWgs84Latitude = some v →
        wtrcsv.mapGetD r.toMap wtrcsv.HeadingWgs84Latitude = v) ∧
      (WtrGo.getVal columns wtrcsv.HeadingWgs84Longitude = none →
        wtrcsv.mapGetD r.toMap wtrcsv.HeadingWgs84Longitude = "") ∧
      (WtrGo.getVal columns wtrcsv.HeadingWgs84Latitude = none →
        wtrcsv.mapGetD r.toMap wtrcsv.HeadingWgs84Latitude = "") ∧
      wtrcsv.mapGetD r.toMap wtrcsv.HeadingOsEasting = WtrGo.itoa r.OsEasting ∧
      wtrcsv.mapGetD r.toMap wtrcsv.HeadingOsNorthing = WtrGo.itoa r.OsNorthing ∧
      (WtrGo.getVal columns wtrcsv.HeadingOsEasting = none →
        wtrcsv.mapGetD r.toMap wtrcsv.HeadingOsEasting = "0") ∧
      (WtrGo.getVal columns wtrcsv.HeadingOsNorthing = none →
        wtrcsv.mapGetD r.toMap wtrcsv.HeadingOsNorthing = "0") := by
  intro columns r h
  obtain ⟨r1, r2, r3, h1, h2, h3, h4⟩ := wtrcsv.newRow_elim h
  have hE := wtrcsv.applyOsEasting_elim h1
  have hN := wtrcsv.applyOsNorthing_elim h2
  have hLong := wtrcsv.applyWgs84Longitude_elim h3
  have hLat := wtrcsv.applyWgs84Latitude_elim h4
  have r1LongS : r1.Wgs84LongitudeAsString = "" := by
    rcases hE with ⟨_, rfl⟩ | ⟨v, n, _, _, rfl⟩ <;> rfl
  have r1LatS : r1.Wgs84LatitudeAsString = "" := by
    rcases hE with ⟨_, rfl⟩ | ⟨v, n, _, _, rfl⟩ <;> rfl
  have r1North : r1.OsNorthing = 0 := by
    rcases hE with ⟨_, rfl⟩ | ⟨v, n, _, _, rfl⟩ <;> rfl
  have r2LongS : r2.Wgs84LongitudeAsString = r1.Wgs84LongitudeAsString := by
    rcases hN with ⟨_, rfl⟩ | ⟨v, n, _, _, rfl⟩ <;> rfl
  have r2LatS : r2.Wgs84LatitudeAsString = r1.Wgs84LatitudeAsString := by
    rcases hN with ⟨_, rfl⟩ | ⟨v, n, _, _, rfl⟩ <;> rfl
  have r2E : r2.OsEasting = r1.OsEasting := by
    rcases hN with ⟨_, rfl⟩ | ⟨v, n, _, _, rfl⟩ <;> rfl
  have r3LatS : r3.Wgs84LatitudeAsString = r2.Wgs84LatitudeAsString := by
    rcases hLong with ⟨_, rfl⟩ | ⟨v, q, _, _, rfl⟩ <;> rfl
  have r3E : r3.OsEasting = r2.OsEasting := by
    rcases hLong with ⟨_, rfl⟩ | ⟨v, q, _, _, rfl⟩ <;> rfl
  have r3N : r3.OsNorthing = r2.OsNorthing := by
    rcases hLong with ⟨_, rfl⟩ | ⟨v, q, _, _, rfl⟩ <;> rfl
  have rLongS : r.Wgs84LongitudeAsString = r3.Wgs84LongitudeAsString := by
    rcases hLat with ⟨_, rfl⟩ | ⟨v, q, _, _, rfl⟩ <;> rfl
  have rE : r.OsEasting = r3.OsEasting := by
    rcases hLat with ⟨_, rfl⟩ | ⟨v, q, _, _, rfl⟩ <;> rfl
  have rN : r.OsNorthing = r3.OsNorthing := by
    rcases hLat with ⟨_, rfl⟩ | ⟨v, q, _, _, rfl⟩ <;> rfl
  refine ⟨?_, ?_, ?_, ?_, wtrcsv.mapGetD_toMap_osEasting r, wtrcsv.mapGetD_toMap_osNorthing r,
    ?_, ?_⟩
  · intro v hv
    rcases hLong with ⟨hnone, _⟩ | ⟨v', q, hv', hq, hr3⟩
    · rw [hv] at hnone; exact Option.noConfusion hnone
    · rw [hv] at hv'
      have hvv := Option.some_inj.mp hv'
      subst hr3
      rw [wtrcsv.mapGetD_toMap_wgs84Long, rLongS]
      exact hvv.symm
  · intro v hv
    rcases hLat with ⟨hnone, _⟩ | ⟨v', q, hv', hq, hr⟩
    · rw [hv] at hnone; exact Option.noConfusion hnone
    · rw [hv] at hv'
      have hvv := Option.some_inj.mp hv'
      subst hr
      rw [wtrcsv.mapGetD_toMap_wgs84Lat]
      exact hvv.symm
  · intro hnone
    rcases hLong with ⟨_, hr3⟩ | ⟨v', q, hv', _, _⟩
    · subst hr3
      rw [wtrcsv.mapGetD_toMap_wgs84Long, rLongS, r2LongS, r1LongS]
    · rw [hnone] at hv'; exact Option.noConfusion hv'
  · intro hnone
    rcases hLat with ⟨_, hr⟩ | ⟨v', q, hv', _, _⟩
    · subst hr
      rw [wtrcsv.mapGetD_toMap_wgs84Lat, r3LatS, r2LatS, r1LatS]
    · rw [hnone] at hv'; exact Option.noConfusion hv'
  · intro hnone
    rcases hE with ⟨_, hr1⟩ | ⟨v, n, hv, _, _⟩
    · subst hr1
      rw [wtrcsv.mapGetD_toMap_osEasting, rE, r3E, r2E]
      rfl
    · rw [hnone] at hv; exact Option.noConfusion hv
  · intro hnone
    rcases hN with ⟨_, hr2⟩ | ⟨v, n, hv, _, _⟩
    · subst hr2
      rw [wtrcsv.mapGetD_toMap_osNorthing, rN, r3N, r1North]
      rfl
    · rw [hnone] at hv; exact Option.noConfusion hv

/-- Witness for the amended C3: loading with `WGS84 Longitude` = `51.500000`
and `OS Easting` = `007` renders the longitude exactly as captured, the
absent latitude as the empty string, and the absent northing as `0`. -/
theorem claim_C3_amended_rendering_witness :
    ∃ r : wtrcsv.Row,
      wtrcsv.newRow
          [(wtrcsv.HeadingWgs84Longitude, "51.500000"), (wtrcsv.HeadingOsEasting, "007")] =
        some r ∧
      wtrcsv.mapGetD r.toMap wtrcsv.HeadingWgs84Longitude = "51.500000" ∧
      wtrcsv.mapGetD r.toMap wtrcsv.HeadingWgs84Latitude = "" ∧
      wtrcsv.mapGetD r.toMap wtrcsv.HeadingOsNorthing = "0" := by
  obtain ⟨r, hr⟩ : ∃ r, wtrcsv.newRow
      [(wtrcsv.HeadingWgs84Longitude, "51.500000"), (wtrcsv.HeadingOsEasting, "007")] =
        some r := ⟨_, rfl⟩
  have h := claim_C3_amended_rendering _ _ hr
  exact ⟨r, hr, h.1 _ rfl, h.2.2.2.1 rfl, h.2.2.2.2.2.2.2 rfl⟩

/-- Claim C9: an extension label present in the header whose value does not
parse as the field's numeric kind aborts the whole load; an absent extension
label leaves the load untouched, the field keeping its zero/empty value, and
a table with no extension labels always loads. -/
theorem claim_C9_extension_parse_failure_fatal :
    (∀ (columns : WtrGo.RawRow) v,
      WtrGo.getVal columns wtrcsv.HeadingOsEasting = some v → WtrGo.atoi v = none →
        wtrcsv.newRow columns = none) ∧
    (∀ (columns : WtrGo.RawRow) v,
      WtrGo.getVal columns wtrcsv.HeadingOsNorthing = some v → WtrGo.atoi v = none →
        wtrcsv.newRow columns = none) ∧
    (∀ (columns : WtrGo.RawRow) v,
      WtrGo.getVal columns wtrcsv.HeadingWgs84Longitude = some v →
        WtrGo.parseGoFloat v = none → wtrcsv.newRow columns = none) ∧
    (∀ (columns : WtrGo.RawRow) v,
      WtrGo.getVal columns wtrcsv.HeadingWgs84Latitude = some v →
        WtrGo.parseGoFloat v = none → wtrcsv.newRow columns = none) ∧
    (∀ (columns : WtrGo.RawRow) (r : wtrcsv.Row), wtrcsv.newRow columns = some r →
      (WtrGo.getVal columns wtrcsv.HeadingOsEasting = none → r.OsEasting = 0) ∧
      (WtrGo.getVal columns wtrcsv.HeadingOsNorthing = none → r.OsNorthing = 0) ∧
      (WtrGo.getVal columns wtrcsv.HeadingWgs84Longitude = none →
        r.Wgs84LongitudeAsString = "" ∧ r.Wgs84Longitude = 0) ∧
      (WtrGo.getVal columns wtrcsv.HeadingWgs84Latitude = none →
        r.Wgs84LatitudeAsString = "" ∧ r.Wgs84Latitude = 0)) ∧
    (∀ columns : WtrGo.RawRow,
      WtrGo.getVal columns wtrcsv.HeadingOsEasting = none →
      WtrGo.getVal columns wtrcsv.HeadingOsNorthing = none →
      WtrGo.getVal columns wtrcsv.HeadingWgs84Longitude = none →
      WtrGo.getVal columns wtrcsv.HeadingWgs84Latitude = none →
        wtrcsv.newRow columns = some (wtrcsv.coreRow columns)) := by
  refine ⟨?_, ?_, ?_, ?_, ?_, ?_⟩
  · intro columns v hv ha
    have hee : wtrcsv.applyOsEasting columns (wtrcsv.coreRow columns) = none := by
      have step : wtrcsv.applyOsEasting columns (wtrcsv.coreRow columns) =
          Option.map (fun n => { wtrcsv.coreRow columns with OsEasting := n })
            (WtrGo.atoi v) := by
        rw [wtrcsv.applyOsEasting, hv]
      rw [step, ha]
      rfl
    rw [wtrcsv.newRow, hee]
    rfl
  · intro columns v hv ha
    have stepN : ∀ r : wtrcsv.Row, wtrcsv.applyOsNorthing columns r = none := by
      intro r
      have step : wtrcsv.applyOsNorthing columns r =
          Option.map (fun n => { r with OsNorthing := n }) (WtrGo.atoi v) := by
        rw [wtrcsv.applyOsNorthing, hv]
      rw [step, ha]
      rfl
    cases hEa : wtrcsv.applyOsEasting columns (wtrcsv.coreRow columns) with
    | none => rw [wtrcsv.newRow, hEa]; rfl
    | some r1 => rw [wtrcsv.newRow, hEa]; simp [stepN]
  · intro columns v hv ha
    have stepL : ∀ r : wtrcsv.Row, wtrcsv.applyWgs84Longitude columns r = none := by
      intro r
      have step : wtrcsv.applyWgs84Longitude columns r =
          Option.map (fun q =>
            { r with Wgs84LongitudeAsString := v, Wgs84Longitude := q })
            (WtrGo.parseGoFloat v) := by
        rw [wtrcsv.applyWgs84Longitude, hv]
      rw [step, ha]
      rfl
    cases hEa : wtrcsv.applyOsEasting columns (wtrcsv.coreRow columns) with
    | none => rw [wtrcsv.newRow, hEa]; rfl
    | some r1 =>
      cases hNo : wtrcsv.applyOsNorthing columns r1 with
      | none => rw [wtrcsv.newRow, hEa]; simp [hNo]
      | some r2 => rw [wtrcsv.newRow, hEa]; simp [hNo, stepL]
  · intro columns v hv ha
    have stepLat : ∀ r : wtrcsv.Row, wtrcsv.applyWgs84Latitude columns r = none := by
      intro r
      have step : wtrcsv.applyWgs84Latitude columns r =
          Option.map (fun q =>
            { r with Wgs84LatitudeAsString := v, Wgs84Latitude := q })
            (WtrGo.parseGoFloat v) := by
        rw [wtrcsv.applyWgs84Latitude, hv]
      rw [step, ha]
      rfl
    cases hEa : wtrcsv.applyOsEasting columns (wtrcsv.coreRow columns) with
    | none => rw [wtrcsv.newRow, hEa]; rfl
    | some r1 =>
      cases hNo : wtrcsv.applyOsNorthing columns r1 with
      | none => rw [wtrcsv.newRow, hEa]; simp [hNo]
      | some r2 =>
        cases hLo : wtrcsv.applyWgs84Longitude columns r2 with
        | none => rw [wtrcsv.newRow, hEa]; simp [hNo, hLo]
        | some r3 => rw [wtrcsv.newRow, hEa]; simp [hNo, hLo, stepLat]
  · intro columns r h
    obtain ⟨r1, r2, r3, h1, h2, h3, h4⟩ := wtrcsv.newRow_elim h
    have hE := wtrcsv.applyOsEasting_elim h1
    have hN := wtrcsv.applyOsNorthing_elim h2
    have hLong := wtrcsv.applyWgs84Longitude_elim h3
    have hLat := wtrcsv.applyWgs84Latitude_elim h4
    have r1North : r1.OsNorthing = 0 := by
      rcases hE with ⟨_, rfl⟩ | ⟨v, n, _, _, rfl⟩ <;> rfl
    have r1LongS : r1.Wgs84LongitudeAsString = "" := by
      rcases hE with ⟨_, rfl⟩ | ⟨v, n, _, _, rfl⟩ <;> rfl
    have r1LongV : r1.Wgs84Longitude = 0 := by
      rcases hE with ⟨_, rfl⟩ | ⟨v, n, _, _, rfl⟩ <;> rfl
    have r1LatS : r1.Wgs84LatitudeAsString = "" := by
      rcases hE with ⟨_, rfl⟩ | ⟨v, n, _, _, rfl⟩ <;> rfl
    have r1LatV : r1.Wgs84Latitude = 0 := by
      rcases hE with ⟨_, rfl⟩ | ⟨v, n, _, _, rfl⟩ <;> rfl
    have r2E : r2.OsEasting = r1.OsEasting := by
      rcases hN with ⟨_, rfl⟩ | ⟨v, n, _, _, rfl⟩ <;> rfl
    have r2LongS : r2.Wgs84LongitudeAsString = r1.Wgs84LongitudeAsString := by
      rcases hN with ⟨_, rfl⟩ | ⟨v, n, _, _, rfl⟩ <;> rfl
    have r2LongV : r2.Wgs84Longitude = r1.Wgs84Longitude := by
      rcases hN with ⟨_, rfl⟩ | ⟨v, n, _, _, rfl⟩ <;> rfl
    have r2LatS : r2.Wgs84LatitudeAsString = r1.Wgs84LatitudeAsString := by
      rcases hN with ⟨_, rfl⟩ | ⟨v, n, _, _, rfl⟩ <;> rfl
    have r2LatV : r2.Wgs84Latitude = r1.Wgs84Latitude := by
      rcases hN with ⟨_, rfl⟩ | ⟨v, n, _, _, rfl⟩ <;> rfl
    have r3E : r3.OsEasting = r2.OsEasting := by
      rcases hLong with ⟨_, rfl⟩ | ⟨v, q, _, _, rfl⟩ <;> rfl
    have r3N : r3.OsNorthing = r2.OsNorthing := by
      rcases hLong with ⟨_, rfl⟩ | ⟨v, q, _, _, rfl⟩ <;> rfl
    have r3LatS : r3.Wgs84LatitudeAsString = r2.Wgs84LatitudeAsString := by
      rcases hLong with ⟨_, rfl⟩ | ⟨v, q, _, _, rfl⟩ <;> rfl
    have r3LatV : r3.Wgs84Latitude = r2.Wgs84Latitude := by
      rcases hLong with ⟨_, rfl⟩ | ⟨v, q, _, _, rfl⟩ <;> rfl
    have rE : r.OsEasting = r3.OsEasting := by
      rcases hLat with ⟨_, rfl⟩ | ⟨v, q, _, _, rfl⟩ <;> rfl
    have rN : r.OsNorthing = r3.OsNorthing := by
      rcases hLat with ⟨_, rfl⟩ | ⟨v, q, _, _, rfl⟩ <;> rfl
    have rLongS : r.Wgs84LongitudeAsString = r3.Wgs84LongitudeAsString := by
      rcases hLat with ⟨_, rfl⟩ | ⟨v, q, _, _, rfl⟩ <;> rfl
    have rLongV : r.Wgs84Longitude = r3.Wgs84Longitude := by
      rcases hLat with ⟨_, rfl⟩ | ⟨v, q, _, _, rfl⟩ <;> rfl
    refine ⟨?_, ?_, ?_, ?_⟩
    · intro hnone
      rcases hE with ⟨_, hr1⟩ | ⟨v, n, hv, _, _⟩
      · subst hr1
        rw [rE, r3E, r2E]
        rfl
      · rw [hnone] at hv; exact Option.noConfusion hv
    · intro hnone
      rcases hN with ⟨_, hr2⟩ | ⟨v, n, hv, _, _⟩
      · subst hr2
        rw [rN, r3N, r1North]
      · rw [hnone] at hv; exact Option.noConfusion hv
    · intro hnone
      rcases hLong with ⟨_, hr3⟩ | ⟨v, q, hv, _, _⟩
      · subst hr3
        exact ⟨by rw [rLongS, r2LongS, r1LongS],
          by rw [rLongV, r2LongV, r1LongV]⟩
      · rw [hnone] at hv; exact Option.noConfusion hv
    · intro hnone
      rcases hLat with ⟨_, hr⟩ | ⟨v, q, hv, _, _⟩
      · subst hr
        exact ⟨by rw [r3LatS, r2LatS, r1LatS], by rw [r3LatV, r2LatV, r1LatV]⟩
      · rw [hnone] at hv; exact Option.noConfusion hv
  · intro columns h1 h2 h3 h4
    have e1 : wtrcsv.applyOsEasting columns (wtrcsv.coreRow columns) =
        some (wtrcsv.coreRow columns) := by
      rw [wtrcsv.applyOsEasting, h1]
    have e2 : ∀ r : wtrcsv.Row, wtrcsv.applyOsNorthing columns r = some r := by
      intro r; rw [wtrcsv.applyOsNorthing, h2]
    have e3 : ∀ r : wtrcsv.Row, wtrcsv.applyWgs84Longitude columns r = some r := by
      intro r; rw [wtrcsv.applyWgs84Longitude, h3]
    have e4 : ∀ r : wtrcsv.Row, wtrcsv.applyWgs84Latitude columns r = some r := by
      intro r; rw [wtrcsv.applyWgs84Latitude, h4]
    simp [wtrcsv.newRow, e1, e2, e3, e4]

/-- Witness for C9: an unparsable present `OS Easting` or `WGS84 Longitude`
aborts the row; a row without any extension label loads as the plain core
record. -/
theorem claim_C9_extension_parse_failure_fatal_witness :
    wtrcsv.newRow [(wtrcsv.HeadingOsEasting, "12x")] = none ∧
    wtrcsv.newRow [(wtrcsv.HeadingWgs84Longitude, "abc")] = none ∧
    wtrcsv.newRow [("Licence Number", "L1")] =
      some (wtrcsv.coreRow [("Licence Number", "L1")]) := by
  refine ⟨?_, ?_, ?_⟩
  · exact claim_C9_extension_parse_failure_fatal.1 _ "12x" rfl rfl
  · exact claim_C9_extension_parse_failure_fatal.2.2.1 _ "abc" rfl rfl
  · exact claim_C9_extension_parse_failure_fatal.2.2.2.2.2 _ rfl rfl rfl rfl
